import Mathlib

/-!
Verification of the ride-matching and offline-cache logic of the
find-your-ride-partner application.

The development shallowly embeds the two subsystems under scrutiny:

* the Match Engine of `RideList` (helpers `isTimeWithinRange` and
  `isSameDay`, the `matchedRides` filter and the `sortedRides`
  time-proximity sort);
* the Offline Cache Layer: the localStorage TTL cache (`isCacheValid`,
  `getCachedData`, `setCacheData`, and the cache gate of `fetchData`)
  and the service-worker fetch handler.

JavaScript peculiarities that the claims depend on are modelled
explicitly: `new Date` coercions of missing / null / malformed time
fields, truthiness, the TypeError raised by calling `.toLowerCase()` on
a null field (an `Except Unit` monad), `JSON.parse` failure on corrupt
storage content, and the stop-on-first-failure behaviour of a
`try { ... } catch` block around sequential `localStorage.setItem`
calls.
-/

namespace RideList

/-- Model of the value found in a ride's `time` field and of how
`new Date(value)` coerces it: an absent field (`undefined`) and an
unparsable string both give an Invalid Date (NaN), a `null` field is
coerced to the epoch timestamp `0`, and a parseable string gives its
millisecond timestamp. -/
inductive TimeField where
  | missing
  | nullv
  | malformed
  | valid (ms : Int)
deriving DecidableEq, Repr

/-- Result of `new Date(field)`: `none` is an Invalid Date (its
`getTime`/`getFullYear`/... are NaN), `some ms` a valid date at
millisecond timestamp `ms`. -/
def toDate : TimeField → Option Int
  | .missing => none
  | .nullv => some 0
  | .malformed => none
  | .valid ms => some ms

/-- A ride as the match engine sees it: `from` / `to` are `none` when
the field is null or absent (the fields the code reads with
`.toLowerCase()`), and `time` is the raw field value fed to
`new Date`.  Further columns of the rides table are irrelevant to the
matching logic. -/
structure Ride where
  «from» : Option String
  «to» : Option String
  time : TimeField
deriving DecidableEq, Repr

/-- ASCII lowercasing of a character, the fragment of
`String.prototype.toLowerCase` exercised by the location labels. -/
def lowerChar (c : Char) : Char :=
  if 65 ≤ c.toNat ∧ c.toNat ≤ 90 then Char.ofNat (c.toNat + 32) else c

/-- Model of `s.toLowerCase()` on a string value. -/
def jsToLower (s : String) : String :=
  ⟨s.data.map lowerChar⟩

/-- Model of reading `.toLowerCase()` off a possibly-null field: on
`null`/`undefined` the member access throws a TypeError, modelled as
`Except.error ()`. -/
def jsToLowerCase : Option String → Except Unit String
  | none => .error ()
  | some s => .ok (jsToLower s)

/-- The exact value of `diffInMinutes` in `isTimeWithinRange`:
`Math.abs(t1 - t2) / (1000 * 60)`.  The numerator is an exact integer
below 2^53 for realistic timestamps, so the floating-point division
and comparison agree with the rational ones. -/
def diffInMinutes (t1 t2 : Int) : ℚ :=
  ((t1 - t2).natAbs : ℚ) / (1000 * 60)

/-- Model of `isTimeWithinRange(time1, time2)` (default range 30
minutes): `diffInMinutes <= 30` where `t1`, `t2` are the `new Date`
coercions of the arguments.  The comparison is written in the
equivalent integer form `|t1 - t2| ≤ 30 * (1000 * 60)` (the
equivalence with the source's division formula is
`diffInMinutes_le_iff` below) so that it evaluates by kernel
reduction.  If either date is invalid the difference is NaN and every
NaN comparison is false. -/
def isTimeWithinRange (time1 time2 : TimeField) : Bool :=
  match toDate time1, toDate time2 with
  | some t1, some t2 => (t1 - t2).natAbs ≤ 30 * (1000 * 60)
  | _, _ => false

/-- Model of `isSameDay(date1, date2)`: the local calendar projection
`getFullYear`/`getMonth`/`getDate` of a valid date is abstracted as a
function `ymd` from the millisecond timestamp to a (year, month, day)
triple; on an Invalid Date each accessor returns NaN and
`NaN === NaN` is false, so any comparison involving an invalid date
fails. -/
def isSameDay (ymd : Int → Int × Int × Int) (date1 date2 : TimeField) : Bool :=
  match toDate date1, toDate date2 with
  | some t1, some t2 => ymd t1 = ymd t2
  | _, _ => false

/-- Model of the `routeMatches` comparison inside the filter callback:
`myRide.from.toLowerCase() === ride.from.toLowerCase() &&
myRide.to.toLowerCase() === ride.to.toLowerCase()`, with JavaScript's
left-to-right evaluation and `&&` short-circuit: the `to` fields are
only read when the `from` comparison succeeded, and reading
`.toLowerCase()` off a null field throws. -/
def routeMatches (myRide ride : Ride) : Except Unit Bool := do
  let mf ← jsToLowerCase myRide.«from»
  let rf ← jsToLowerCase ride.«from»
  if mf = rf then
    let mt ← jsToLowerCase myRide.«to»
    let rt ← jsToLowerCase ride.«to»
    pure (mt = rt)
  else
    pure false

/-- Model of the body of the `some` callback in `matchedRides`:
`routeMatches && sameDay && timeMatches`.  `isSameDay` and
`isTimeWithinRange` are computed by separate statements in the source
and never throw; only the route comparison can. -/
def rideCallback (ymd : Int → Int × Int × Int) (myRide ride : Ride) : Except Unit Bool := do
  let route ← routeMatches myRide ride
  pure (route && isSameDay ymd myRide.time ride.time && isTimeWithinRange myRide.time ride.time)

/-- `Array.prototype.some` with a callback that may throw: evaluates
left to right, stops at the first `true`, propagates an exception. -/
def someM {α : Type} (p : α → Except Unit Bool) : List α → Except Unit Bool
  | [] => pure false
  | x :: xs => do
    if (← p x) then pure true else someM p xs

/-- `Array.prototype.filter` with a callback that may throw: evaluates
the callback on each element in order, propagating an exception. -/
def filterE {α : Type} (p : α → Except Unit Bool) : List α → Except Unit (List α)
  | [] => pure []
  | x :: xs => do
    let b ← p x
    let rest ← filterE p xs
    pure (if b then x :: rest else rest)

/-- Model of the `matchedRides` computation in `RideList.fetchData`:
`(rides || []).filter((ride) => (myRides || []).some((myRide) => ...))`.
The `Option` on the lists models the `|| []` null guards. -/
def matchedRides (ymd : Int → Int × Int × Int)
    (myRides rides : Option (List Ride)) : Except Unit (List Ride) :=
  filterE (fun ride => someM (fun myRide => rideCallback ymd myRide ride) (myRides.getD []))
    (rides.getD [])

/-- The comparator key of the `sortedRides` sort:
`Math.abs(new Date(r.time) - new Date())` with `now` the timestamp of
`new Date()`.  On an Invalid Date the key would be NaN, making the
comparator inconsistent; rides retained by the match filter always
carry a valid date, and the claims about the sort are scoped to such
lists, so the invalid case is given an arbitrary key here. -/
def sortKey (now : Int) (r : Ride) : Int :=
  match toDate r.time with
  | some t => ((t - now).natAbs : Int)
  | none => 0

/-- Stable insertion of a ride into an already-sorted list: the new
ride goes before every ride of equal or larger key.  Used to model
`Array.prototype.sort`, which ECMAScript requires to be stable; a
stable sort's output is uniquely determined, so any stable sorting
algorithm is a faithful model. -/
def insertRide (now : Int) (x : Ride) : List Ride → List Ride
  | [] => [x]
  | y :: ys => if sortKey now y < sortKey now x then y :: insertRide now x ys else x :: y :: ys

/-- Model of `matchedRides.sort((a, b) => Math.abs(new Date(a.time) -
new Date()) - Math.abs(new Date(b.time) - new Date()))` at a fixed
clock reading `now`. -/
def sortedRides (now : Int) : List Ride → List Ride
  | [] => []
  | x :: xs => insertRide now x (sortedRides now xs)

/-- A ride whose `from` and `to` fields are both present, so its route
comparison cannot throw. -/
def fieldsPresent (r : Ride) : Bool :=
  r.«from».isSome && r.«to».isSome

/-- Pure value of the route comparison for rides with both fields
present. -/
def pureRoute (m c : Ride) : Bool :=
  m.«from».map jsToLower == c.«from».map jsToLower &&
    m.«to».map jsToLower == c.«to».map jsToLower

/-- Pure value of the whole filter-callback condition for rides with
both route fields present. -/
def pureCond (ymd : Int → Int × Int × Int) (m c : Ride) : Bool :=
  pureRoute m c && isSameDay ymd m.time c.time && isTimeWithinRange m.time c.time

end RideList

namespace LocalCache

/-- A JSON value, the domain of `JSON.stringify` / `JSON.parse` for the
snapshots the cache persists (an array of ride rows and a profile
object). -/
inductive Json where
  | null
  | bool (b : Bool)
  | num (n : Int)
  | str (s : String)
  | arr (elems : List Json)
  | obj (fields : List (String × Json))

/-- JavaScript truthiness of a parsed JSON value, as tested by
`if (cachedRides && cachedProfile)`: `null`, `false`, `0` and the
empty string are falsy; every array and object (including `[]` and
`{}`) is truthy. -/
def jsTruthy : Json → Bool
  | .null => false
  | .bool b => b
  | .num n => n ≠ 0
  | .str s => s ≠ ""
  | .arr _ => true
  | .obj _ => true

/-- Content of one localStorage cell: either a string written by
`JSON.stringify` of some value, or content that `JSON.parse`
rejects (corruption). -/
inductive Cell where
  | json (v : Json)
  | garbage (s : String)

/-- The three persisted localStorage entries, named after
`CACHE_KEYS`: `cached_rides`, `cached_profile` (JSON cells, `none`
when the key is absent) and `last_fetch_time`.  The last-fetch cell is
written as `Date.now().toString()` and read back with `Number(...)`,
an exact round trip for every value the code writes, so it is modelled
directly as the millisecond timestamp; an absent key reads as `null`,
which is falsy. -/
structure Storage where
  cached_rides : Option Cell
  cached_profile : Option Cell
  last_fetch_time : Option Nat

/-- Cache expiration time (15 minutes), in milliseconds. -/
def CACHE_EXPIRATION : Int := 15 * 60 * 1000

/-- Model of `isCacheValid`: `lastFetchTime && Date.now() -
Number(lastFetchTime) < CACHE_EXPIRATION` at clock reading `now`. -/
def isCacheValid (st : Storage) (now : Nat) : Bool :=
  match st.last_fetch_time with
  | none => false
  | some t => (now : Int) - (t : Int) < CACHE_EXPIRATION

/-- Model of `JSON.parse(localStorage.getItem(key))`: an absent key
yields `null`, which `JSON.parse` coerces to the string "null" and
parses to the JSON null value; a stringified value parses back to that
value; garbage content throws a SyntaxError. -/
def jsonParse : Option Cell → Except Unit Json
  | none => .ok .null
  | some (.json v) => .ok v
  | some (.garbage _) => .error ()

/-- Model of `getCachedData`: parse the rides cell, then the profile
cell, inside `try { ... } catch`; the first parse failure jumps to the
catch block, which returns `{ rides: null, profile: null }`. -/
def getCachedData (st : Storage) : Json × Json :=
  match jsonParse st.cached_rides with
  | .error _ => (.null, .null)
  | .ok r =>
    match jsonParse st.cached_profile with
    | .error _ => (.null, .null)
    | .ok p => (r, p)

/-- Fault model for the three `localStorage.setItem` calls of
`setCacheData`: each write may throw (quota exceeded). -/
structure WriteFaults where
  ridesFail : Bool
  profileFail : Bool
  stampFail : Bool

/-- Model of `setCacheData(rides, profile)` at clock reading `now`:
three sequential `setItem` calls inside `try { ... } catch`.  A
throwing `setItem` leaves its own key unchanged and aborts the
remaining writes (the exception propagates to the catch block, which
only logs); writes that already happened persist. -/
def setCacheData (st : Storage) (f : WriteFaults) (rides profile : Json) (now : Nat) :
    Storage :=
  if f.ridesFail then st
  else
    let st1 := { st with cached_rides := some (.json rides) }
    if f.profileFail then st1
    else
      let st2 := { st1 with cached_profile := some (.json profile) }
      if f.stampFail then st2
      else { st2 with last_fetch_time := some now }

/-- Model of the cache gate at the top of `RideList.fetchData`: the
cached snapshot is served (and the network fetch skipped) exactly when
`isCacheValid()` holds and both values returned by `getCachedData()`
are truthy. -/
def fetchServesCache (st : Storage) (now : Nat) : Bool :=
  isCacheValid st now &&
    (jsTruthy (getCachedData st).1 && jsTruthy (getCachedData st).2)

end LocalCache

namespace ServiceWorker

/-- The fields of a fetch-event request that the service worker
inspects: its URL, HTTP method, and request mode ("navigate" for page
navigations). -/
structure Request where
  url : String
  method : String
  mode : String
deriving DecidableEq, Repr

/-- A network response: its HTTP status and body.  `Response.clone`
duplicates the body stream; in this pure model a response value can be
used twice, so storing an entry with the same body models storing the
clone. -/
structure Response where
  status : Nat
  body : String
deriving DecidableEq, Repr

/-- The versioned cache: entries keyed by request URL, as produced by
`cache.put(request, response)` and queried by
`caches.match(request)`. -/
abbrev Cache := List (String × Response)

/-- Character-list test for "is this list a prefix of that one". -/
def isPrefixL : List Char → List Char → Bool
  | [], _ => true
  | _ :: _, [] => false
  | a :: as, b :: bs => a = b && isPrefixL as bs

/-- Character-list substring search. -/
def hasInfixL (needle : List Char) : List Char → Bool
  | [] => isPrefixL needle []
  | c :: cs => isPrefixL needle (c :: cs) || hasInfixL needle cs

/-- Model of `String.prototype.includes`. -/
def jsIncludes (s sub : String) : Bool :=
  hasInfixL sub.data s.data

/-- Model of `String.prototype.startsWith`. -/
def jsStartsWith (s pre : String) : Bool :=
  isPrefixL pre.data s.data

def CACHE_NAME : String := "ride-partner-v2"

/-- The static-asset manifest pre-populated at install time. -/
def STATIC_ASSETS : List String :=
  ["/", "/index.html", "/manifest.json", "/favicon.ico", "/logo192.png",
    "/logo512.png", "/static/js/main.bundle.js", "/static/css/main.css"]

/-- Model of `caches.match(request)`: the cached response stored under
the request's URL, if any. -/
def cacheMatch (c : Cache) (url : String) : Option Response :=
  (c.find? (fun e => e.1 == url)).map (fun e => e.2)

/-- Model of `cache.put(request, response)`: stores the response under
the request's URL, replacing any previous entry for that URL. -/
def cachePut (c : Cache) (url : String) (r : Response) : Cache :=
  (url, r) :: c.filter (fun e => e.1 != url)

/-- Cache state after the install event: every path of
`STATIC_ASSETS` is fetched (`assetResp` gives the network's response
for each path) and added to the named cache. -/
def installCache (assetResp : String → Response) : Cache :=
  STATIC_ASSETS.map (fun u => (u, assetResp u))

/-- Outcome of the fetch handler for one event: either the handler
returns without calling `event.respondWith` (the request proceeds
untouched), or it responds with `some` response, or with an
empty/absent result (`respondWith` resolved with `undefined` or
`null`). -/
inductive FetchOutcome where
  | passThrough
  | respond (resp : Option Response)
deriving DecidableEq, Repr

/-- Model of the fetch-event handler.  `origin` is
`self.location.origin`; `net` is the result of `fetch(event.request)`
(`none` when the network fetch rejects; a resolved response of any
status otherwise).  Returns the outcome and the cache state after the
event (the `cache.put` of the network-first branch is fire-and-forget
in the source but its effect on the named cache is the same). -/
def handleFetch (origin : String) (c : Cache) (req : Request) (net : Option Response) :
    FetchOutcome × Cache :=
  if ¬ jsStartsWith req.url origin then (.passThrough, c)
  else if jsIncludes req.url "/api/" then
    (.respond (match net with
      | some r => some r
      | none => cacheMatch c req.url), c)
  else
    match net with
    | some r =>
      (.respond (some r),
        if req.method == "GET" && r.status == 200 then cachePut c req.url r else c)
    | none =>
      (.respond (match cacheMatch c req.url with
        | some r => some r
        | none => if req.mode == "navigate" then cacheMatch c "/index.html" else none),
        c)

/-- A cache state none of whose keys is an API path.  This holds after
install and is preserved by every fetch event, which is why the
cache-fallback of the API branch can never produce a response. -/
def noApiEntries (c : Cache) : Prop :=
  ∀ e ∈ c, jsIncludes e.1 "/api/" = false

end ServiceWorker

namespace RideList

/-- The integer comparison used in `isTimeWithinRange` agrees with the
source's `diffInMinutes <= 30`. -/
theorem diffInMinutes_le_iff (t1 t2 : Int) :
    diffInMinutes t1 t2 ≤ 30 ↔ (t1 - t2).natAbs ≤ 30 * (1000 * 60) := by
  unfold diffInMinutes
  rw [div_le_iff₀ (by norm_num)]
  constructor
  · intro h
    exact_mod_cast h
  · intro h
    exact_mod_cast h

theorem fieldsPresent_iff {r : Ride} :
    fieldsPresent r = true ↔ (∃ a, r.«from» = some a) ∧ ∃ b, r.«to» = some b := by
  simp [fieldsPresent, Option.isSome_iff_exists]

theorem ok_bind {α β : Type} (a : α) (f : α → Except Unit β) :
    (Except.ok a >>= f : Except Unit β) = f a := rfl

theorem error_bind {α β : Type} (f : α → Except Unit β) :
    (Except.error () >>= f : Except Unit β) = .error () := rfl

theorem pure_eq_ok {α : Type} (a : α) : (pure a : Except Unit α) = .ok a := rfl

theorem routeMatches_ok {m c : Ride} (hm : fieldsPresent m = true)
    (hc : fieldsPresent c = true) : routeMatches m c = .ok (pureRoute m c) := by
  obtain ⟨⟨a, ha⟩, ⟨x, hx⟩⟩ := fieldsPresent_iff.mp hm
  obtain ⟨⟨b, hb⟩, ⟨y, hy⟩⟩ := fieldsPresent_iff.mp hc
  by_cases hf : jsToLower a = jsToLower b
  · by_cases ht : jsToLower x = jsToLower y <;>
      simp [routeMatches, pureRoute, jsToLowerCase, ha, hb, hx, hy, hf, ht,
        ok_bind, pure_eq_ok, beq_iff_eq]
  · simp [routeMatches, pureRoute, jsToLowerCase, ha, hb, hx, hy, hf,
      ok_bind, pure_eq_ok, beq_iff_eq]

theorem rideCallback_ok {ymd : Int → Int × Int × Int} {m c : Ride}
    (hm : fieldsPresent m = true) (hc : fieldsPresent c = true) :
    rideCallback ymd m c = .ok (pureCond ymd m c) := by
  unfold rideCallback pureCond
  rw [show (do
      let route ← routeMatches m c
      pure (route && isSameDay ymd m.time c.time && isTimeWithinRange m.time c.time) :
        Except Unit Bool) =
    Except.bind (routeMatches m c)
      (fun route => pure (route && isSameDay ymd m.time c.time &&
        isTimeWithinRange m.time c.time)) from rfl]
  rw [routeMatches_ok hm hc]
  rfl

theorem someM_ok {α : Type} {p : α → Except Unit Bool} {q : α → Bool} :
    ∀ l : List α, (∀ x ∈ l, p x = .ok (q x)) → someM p l = .ok (l.any q)
  | [], _ => rfl
  | x :: xs, h => by
    have ih := someM_ok xs (fun y hy => h y (List.mem_cons_of_mem x hy))
    cases hqx : q x <;>
      simp [someM, h x (List.mem_cons_self x xs), hqx, ih, ok_bind, pure_eq_ok]

theorem filterE_ok {α : Type} {p : α → Except Unit Bool} {q : α → Bool} :
    ∀ l : List α, (∀ x ∈ l, p x = .ok (q x)) → filterE p l = .ok (l.filter q)
  | [], _ => rfl
  | x :: xs, h => by
    have ih := filterE_ok xs (fun y hy => h y (List.mem_cons_of_mem x hy))
    cases hqx : q x <;>
      simp [filterE, h x (List.mem_cons_self x xs), hqx, ih, ok_bind, pure_eq_ok,
        List.filter_cons]

theorem matchedRides_ok {ymd : Int → Int × Int × Int} {myRides cands : List Ride}
    (hmy : ∀ m ∈ myRides, fieldsPresent m = true)
    (hc : ∀ c ∈ cands, fieldsPresent c = true) :
    matchedRides ymd (some myRides) (some cands) =
      .ok (cands.filter (fun c => myRides.any (fun m => pureCond ymd m c))) := by
  unfold matchedRides
  exact filterE_ok cands (fun c hcmem =>
    someM_ok myRides (fun m hmmem => rideCallback_ok (hmy m hmmem) (hc c hcmem)))

theorem pureCond_iff {ymd : Int → Int × Int × Int} {m c : Ride}
    (hm : fieldsPresent m = true) (hc : fieldsPresent c = true) :
    pureCond ymd m c = true ↔
      m.«from».map jsToLower = c.«from».map jsToLower ∧
      m.«to».map jsToLower = c.«to».map jsToLower ∧
      ∃ tm tc, toDate m.time = some tm ∧ toDate c.time = some tc ∧
        ymd tm = ymd tc ∧ (tm - tc).natAbs ≤ 30 * (1000 * 60) := by
  obtain ⟨⟨a, ha⟩, ⟨x, hx⟩⟩ := fieldsPresent_iff.mp hm
  obtain ⟨⟨b, hb⟩, ⟨y, hy⟩⟩ := fieldsPresent_iff.mp hc
  unfold pureCond pureRoute isSameDay isTimeWithinRange
  cases h1 : toDate m.time <;> cases h2 : toDate c.time <;>
    simp [ha, hb, hx, hy, Bool.and_eq_true, and_assoc]

theorem insertRide_perm (now : Int) (x : Ride) :
    ∀ l : List Ride, (insertRide now x l).Perm (x :: l)
  | [] => List.Perm.refl _
  | y :: ys => by
    unfold insertRide
    by_cases h : sortKey now y < sortKey now x
    · simp only [h, if_pos]
      exact ((insertRide_perm now x ys).cons y).trans (List.Perm.swap x y ys)
    · simp only [h, if_neg, not_false_iff]
      exact List.Perm.refl _

theorem insertRide_mem {now : Int} {x z : Ride} {l : List Ride} :
    z ∈ insertRide now x l ↔ z = x ∨ z ∈ l := by
  have hzx : z ∈ insertRide now x l ↔ z ∈ x :: l := (insertRide_perm now x l).mem_iff
  simpa using hzx

theorem insertRide_pairwise {now : Int} {x : Ride} :
    ∀ {l : List Ride}, l.Pairwise (fun a b => sortKey now a ≤ sortKey now b) →
      (insertRide now x l).Pairwise (fun a b => sortKey now a ≤ sortKey now b) := by
  intro l
  induction l with
  | nil => intro _; simp [insertRide]
  | cons y ys ih =>
    intro h
    rw [List.pairwise_cons] at h
    obtain ⟨hy, hys⟩ := h
    unfold insertRide
    by_cases hlt : sortKey now y < sortKey now x
    · simp only [hlt, if_pos]
      rw [List.pairwise_cons]
      refine ⟨fun b hb => ?_, ih hys⟩
      rcases insertRide_mem.mp hb with hbx | hbl
      · exact hbx ▸ le_of_lt hlt
      · exact hy b hbl
    · simp only [hlt, if_neg, not_false_iff]
      rw [List.pairwise_cons]
      refine ⟨fun b hb => ?_, List.pairwise_cons.mpr ⟨hy, hys⟩⟩
      rcases List.mem_cons.mp hb with hby | hbl
      · exact hby ▸ le_of_not_lt hlt
      · exact le_trans (le_of_not_lt hlt) (hy b hbl)

theorem insertRide_filter (now : Int) (x : Ride) (k : Int) :
    ∀ l : List Ride,
      (insertRide now x l).filter (fun r => decide (sortKey now r = k)) =
        if sortKey now x = k then
          x :: l.filter (fun r => decide (sortKey now r = k))
        else l.filter (fun r => decide (sortKey now r = k))
  | [] => by
    by_cases hx : sortKey now x = k <;> simp [insertRide, List.filter_cons, hx]
  | y :: ys => by
    unfold insertRide
    by_cases hlt : sortKey now y < sortKey now x
    · simp only [hlt, if_pos]
      by_cases hx : sortKey now x = k
      · have hy : ¬ sortKey now y = k := by omega
        simp [List.filter_cons, hx, hy, insertRide_filter now x k ys]
      · by_cases hy : sortKey now y = k <;>
          simp [List.filter_cons, hx, hy, insertRide_filter now x k ys]
    · simp only [hlt, if_neg, not_false_iff]
      by_cases hx : sortKey now x = k <;> simp [List.filter_cons, hx]

theorem sortedRides_perm (now : Int) : ∀ l : List Ride, (sortedRides now l).Perm l
  | [] => List.Perm.refl _
  | x :: xs =>
    (insertRide_perm now x (sortedRides now xs)).trans
      ((sortedRides_perm now xs).cons x)

theorem sortedRides_pairwise (now : Int) :
    ∀ l : List Ride,
      (sortedRides now l).Pairwise (fun a b => sortKey now a ≤ sortKey now b)
  | [] => List.Pairwise.nil
  | x :: xs => insertRide_pairwise (sortedRides_pairwise now xs)

theorem sortedRides_filter (now : Int) (k : Int) :
    ∀ l : List Ride,
      (sortedRides now l).filter (fun r => decide (sortKey now r = k)) =
        l.filter (fun r => decide (sortKey now r = k))
  | [] => rfl
  | x :: xs => by
    unfold sortedRides
    rw [insertRide_filter now x k (sortedRides now xs), sortedRides_filter now k xs]
    by_cases hx : sortKey now x = k <;> simp [List.filter_cons, hx]

/-- C1: a candidate `c` is retained by `matchedRides` iff some ride
`m` of the user's own rides has the same `from` and `to` after
lowercasing, falls on the same local calendar day, and lies within 30
minutes (boundary inclusive at exactly 30 minutes, 30 minutes plus one
second excluded); each candidate occurrence is kept at most once, and
the result is empty when either input list is empty. -/
theorem match_filter_membership (ymd : Int → Int × Int × Int) (myRides cands : List Ride)
    (hmy : ∀ m ∈ myRides, fieldsPresent m = true)
    (hc : ∀ c ∈ cands, fieldsPresent c = true) :
    ∃ l, matchedRides ymd (some myRides) (some cands) = .ok l ∧
      (∀ c, c ∈ l ↔ c ∈ cands ∧ ∃ m ∈ myRides,
          m.«from».map jsToLower = c.«from».map jsToLower ∧
          m.«to».map jsToLower = c.«to».map jsToLower ∧
          ∃ tm tc, toDate m.time = some tm ∧ toDate c.time = some tc ∧
            ymd tm = ymd tc ∧ (tm - tc).natAbs ≤ 30 * (1000 * 60)) ∧
      (∀ c, l.count c ≤ cands.count c) ∧
      (myRides = [] → l = []) ∧
      (cands = [] → l = []) ∧
      (∀ t : Int, isTimeWithinRange (.valid t) (.valid (t + 30 * (1000 * 60))) = true ∧
        isTimeWithinRange (.valid t) (.valid (t + (30 * (1000 * 60) + 1000))) = false) := by
  refine ⟨_, matchedRides_ok hmy hc, ?_, ?_, ?_, ?_, ?_⟩
  · intro c
    rw [List.mem_filter]
    constructor
    · rintro ⟨hcmem, hany⟩
      obtain ⟨m, hmmem, hcond⟩ := List.any_eq_true.mp hany
      exact ⟨hcmem, m, hmmem, (pureCond_iff (hmy m hmmem) (hc c hcmem)).mp hcond⟩
    · rintro ⟨hcmem, m, hmmem, hcond⟩
      exact ⟨hcmem, List.any_eq_true.mpr
        ⟨m, hmmem, (pureCond_iff (hmy m hmmem) (hc c hcmem)).mpr hcond⟩⟩
  · intro c
    exact (List.filter_sublist _).count_le c
  · intro h
    subst h
    simp
  · intro h
    subst h
    simp
  · intro t
    refine ⟨?_, ?_⟩ <;> simp [isTimeWithinRange, toDate]

/-- Witness for C1 at a concrete instance: one own ride
Campus→Kuril at time 0, one candidate campus→kuril exactly 30 minutes
later; the candidate is retained. -/
theorem match_filter_membership_witness :
    ∃ l, matchedRides (fun _ => ((0 : Int), (0 : Int), (0 : Int)))
        (some [⟨some "Campus", some "Kuril", .valid 0⟩])
        (some [⟨some "campus", some "kuril", .valid (30 * (1000 * 60))⟩]) = .ok l ∧
      (⟨some "campus", some "kuril", .valid (30 * (1000 * 60))⟩ : Ride) ∈ l := by
  obtain ⟨l, hl, hmem, -⟩ :=
    match_filter_membership (fun _ => ((0 : Int), (0 : Int), (0 : Int)))
      [⟨some "Campus", some "Kuril", .valid 0⟩]
      [⟨some "campus", some "kuril", .valid (30 * (1000 * 60))⟩]
      (by decide) (by decide)
  refine ⟨l, hl, ?_⟩
  rw [hmem]
  exact ⟨by simp, ⟨some "Campus", some "Kuril", .valid 0⟩, by simp, by decide, by decide,
    0, 30 * (1000 * 60), rfl, rfl, rfl, by decide⟩

/-- C2: for a retained candidate list (every ride carries a valid
date), the sort orders ascending by distance to `now`, is a
permutation of its input, and is stable: rides at equal distance keep
their relative input order (the filtered subsequence at each fixed
distance is unchanged). -/
theorem result_ordering (now : Int) (l : List Ride)
    (h : ∀ r ∈ l, (toDate r.time).isSome = true) :
    (sortedRides now l).Pairwise (fun a b => sortKey now a ≤ sortKey now b) ∧
    (sortedRides now l).Perm l ∧
    (∀ k : Int, (sortedRides now l).filter (fun r => decide (sortKey now r = k)) =
      l.filter (fun r => decide (sortKey now r = k))) ∧
    (∀ r ∈ l, ∀ t, toDate r.time = some t → sortKey now r = ((t - now).natAbs : Int)) := by
  refine ⟨sortedRides_pairwise now l, sortedRides_perm now l,
    fun k => sortedRides_filter now k l, ?_⟩
  intro r _ t ht
  simp [sortKey, ht]

/-- Witness for C2 at the spec's example: candidates at +10, +40 and
-5 minutes from `now = 0`. -/
theorem result_ordering_witness :
    (∀ r ∈ ([⟨some "a", some "b", .valid 600000⟩,
        ⟨some "a", some "b", .valid 2400000⟩,
        ⟨some "a", some "b", .valid (-300000)⟩] : List Ride),
      (toDate r.time).isSome = true) ∧
    ((sortedRides 0 [⟨some "a", some "b", .valid 600000⟩,
        ⟨some "a", some "b", .valid 2400000⟩,
        ⟨some "a", some "b", .valid (-300000)⟩]).Pairwise
      (fun a b => sortKey 0 a ≤ sortKey 0 b) ∧
    (sortedRides 0 [⟨some "a", some "b", .valid 600000⟩,
        ⟨some "a", some "b", .valid 2400000⟩,
        ⟨some "a", some "b", .valid (-300000)⟩]).Perm
      [⟨some "a", some "b", .valid 600000⟩,
        ⟨some "a", some "b", .valid 2400000⟩,
        ⟨some "a", some "b", .valid (-300000)⟩] ∧
    (∀ k : Int, (sortedRides 0 [⟨some "a", some "b", .valid 600000⟩,
        ⟨some "a", some "b", .valid 2400000⟩,
        ⟨some "a", some "b", .valid (-300000)⟩]).filter
        (fun r => decide (sortKey 0 r = k)) =
      ([⟨some "a", some "b", .valid 600000⟩,
        ⟨some "a", some "b", .valid 2400000⟩,
        ⟨some "a", some "b", .valid (-300000)⟩] : List Ride).filter
        (fun r => decide (sortKey 0 r = k))) ∧
    (∀ r ∈ ([⟨some "a", some "b", .valid 600000⟩,
        ⟨some "a", some "b", .valid 2400000⟩,
        ⟨some "a", some "b", .valid (-300000)⟩] : List Ride),
      ∀ t, toDate r.time = some t → sortKey 0 r = ((t - 0).natAbs : Int))) :=
  ⟨by decide, result_ordering 0 _ (by decide)⟩

/-- C3 is refuted at this input: a single own ride whose `from` field
is null makes the filter callback call `.toLowerCase()` on null, which
throws a TypeError; the match computation does not return normally and
the surrounding error branch is reached. -/
theorem null_from_field_throws :
    matchedRides (fun _ => ((0 : Int), (0 : Int), (0 : Int)))
      (some [⟨none, some "Kuril", .valid 0⟩])
      (some [⟨some "Campus", some "Kuril", .valid 0⟩]) = .error () := rfl

/-- C3 amended: when every compared ride has its `from` and `to`
fields present, the match computation returns normally for all time
fields (including null, absent and malformed ones), and a candidate
whose `time` is absent or unparsable is never retained; but a missing
`from`/`to` on a compared ride throws (see
`null_from_field_throws`). -/
theorem null_safe_time_only (ymd : Int → Int × Int × Int) (myRides cands : List Ride)
    (hmy : ∀ m ∈ myRides, fieldsPresent m = true)
    (hc : ∀ c ∈ cands, fieldsPresent c = true) :
    ∃ l, matchedRides ymd (some myRides) (some cands) = .ok l ∧
      ∀ c ∈ l, toDate c.time ≠ none := by
  refine ⟨_, matchedRides_ok hmy hc, ?_⟩
  intro c hcmem
  rw [List.mem_filter] at hcmem
  obtain ⟨hcmem, hany⟩ := hcmem
  obtain ⟨m, hmmem, hcond⟩ := List.any_eq_true.mp hany
  obtain ⟨-, -, tm, tc, htm, htc, -, -⟩ :=
    (pureCond_iff (hmy m hmmem) (hc c hcmem)).mp hcond
  simp [htc]

/-- Witness for the amended C3: a candidate with a malformed time and
one with an absent time are not retained and nothing throws. -/
theorem null_safe_time_only_witness :
    (∀ m ∈ ([⟨some "Campus", some "Kuril", .valid 0⟩] : List Ride),
      fieldsPresent m = true) ∧
    (∀ c ∈ ([⟨some "Campus", some "Kuril", .malformed⟩,
        ⟨some "Campus", some "Kuril", .missing⟩] : List Ride),
      fieldsPresent c = true) ∧
    ∃ l, matchedRides (fun _ => ((0 : Int), (0 : Int), (0 : Int)))
        (some [⟨some "Campus", some "Kuril", .valid 0⟩])
        (some [⟨some "Campus", some "Kuril", .malformed⟩,
          ⟨some "Campus", some "Kuril", .missing⟩]) = .ok l ∧
      ∀ c ∈ l, toDate c.time ≠ none :=
  ⟨by decide, by decide,
    null_safe_time_only (fun _ => ((0 : Int), (0 : Int), (0 : Int))) _ _
      (by decide) (by decide)⟩

/-- C4: when both compared rides have unparsable (present but
malformed) time strings, the same-day check and the 30-minute-window
check both evaluate to false — the pair is non-matching — and, with
the route fields present, the filter callback completes normally with
`false` instead of raising an error. -/
theorem malformed_time_nonmatching (ymd : Int → Int × Int × Int) (m c : Ride)
    (hm : m.time = .malformed) (hc : c.time = .malformed) :
    isSameDay ymd m.time c.time = false ∧
    isTimeWithinRange m.time c.time = false ∧
    (fieldsPresent m = true → fieldsPresent c = true →
      rideCallback ymd m c = .ok false) := by
  refine ⟨?_, ?_, fun hfm hfc => ?_⟩
  · rw [hm, hc]
    rfl
  · rw [hm, hc]
    rfl
  · rw [rideCallback_ok hfm hfc]
    simp [pureCond, isSameDay, isTimeWithinRange, toDate, hm, hc]

/-- Witness for C4 at a concrete pair of rides with malformed time
strings. -/
theorem malformed_time_nonmatching_witness :
    isSameDay (fun _ => ((0 : Int), (0 : Int), (0 : Int)))
      (Ride.mk (some "Campus") (some "Kuril") .malformed).time
      (Ride.mk (some "campus") (some "kuril") .malformed).time = false ∧
    isTimeWithinRange (Ride.mk (some "Campus") (some "Kuril") .malformed).time
      (Ride.mk (some "campus") (some "kuril") .malformed).time = false ∧
    (fieldsPresent (Ride.mk (some "Campus") (some "Kuril") .malformed) = true →
      fieldsPresent (Ride.mk (some "campus") (some "kuril") .malformed) = true →
      rideCallback (fun _ => ((0 : Int), (0 : Int), (0 : Int)))
        (Ride.mk (some "Campus") (some "Kuril") .malformed)
        (Ride.mk (some "campus") (some "kuril") .malformed) = .ok false) :=
  malformed_time_nonmatching (fun _ => ((0 : Int), (0 : Int), (0 : Int)))
    (Ride.mk (some "Campus") (some "Kuril") .malformed)
    (Ride.mk (some "campus") (some "kuril") .malformed) rfl rfl

end RideList

namespace LocalCache

theorem getCachedData_both_json {st : Storage} {r p : Json}
    (hr : st.cached_rides = some (.json r)) (hp : st.cached_profile = some (.json p)) :
    getCachedData st = (r, p) := by
  simp [getCachedData, jsonParse, hr, hp]

theorem getCachedData_empty {st : Storage}
    (hr : st.cached_rides = none) (hp : st.cached_profile = none) :
    getCachedData st = (.null, .null) := by
  simp [getCachedData, jsonParse, hr, hp]

theorem getCachedData_rides_garbage {st : Storage} {s : String}
    (hr : st.cached_rides = some (.garbage s)) :
    getCachedData st = (.null, .null) := by
  simp [getCachedData, jsonParse, hr]

theorem getCachedData_profile_garbage {st : Storage} {s : String}
    (hp : st.cached_profile = some (.garbage s)) :
    getCachedData st = (.null, .null) := by
  unfold getCachedData
  cases hr : jsonParse st.cached_rides with
  | error e => rfl
  | ok r => simp [jsonParse, hp]

theorem setCacheData_data_written (st : Storage) (f : WriteFaults) (rides profile : Json)
    (now : Nat) (h1 : f.ridesFail = false) (h2 : f.profileFail = false) :
    (setCacheData st f rides profile now).cached_rides = some (.json rides) ∧
    (setCacheData st f rides profile now).cached_profile = some (.json profile) := by
  cases hs : f.stampFail <;> simp [setCacheData, h1, h2, hs]

theorem jsTruthy_ne_null {v : Json} (h : jsTruthy v = true) : v ≠ Json.null := by
  intro hv
  rw [hv] at h
  exact absurd h (by simp [jsTruthy])

/-- C5: `isCacheValid` holds iff a last-fetch timestamp exists and is
strictly less than 15 minutes old; it holds immediately after a fully
successful `setCacheData`, and fails once 15 or more minutes have
elapsed since the stored timestamp. -/
theorem cache_ttl_validity (st : Storage) (now : Nat) :
    (isCacheValid st now = true ↔
      ∃ t, st.last_fetch_time = some t ∧ (now : Int) - (t : Int) < 15 * 60 * 1000) ∧
    (∀ f rides profile, f.ridesFail = false → f.profileFail = false → f.stampFail = false →
      isCacheValid (setCacheData st f rides profile now) now = true) ∧
    (∀ t now2, st.last_fetch_time = some t → t + 15 * 60 * 1000 ≤ now2 →
      isCacheValid st now2 = false) := by
  refine ⟨?_, ?_, ?_⟩
  · cases hlf : st.last_fetch_time with
    | none => simp [isCacheValid, hlf]
    | some t => simp [isCacheValid, hlf, CACHE_EXPIRATION]
  · intro f rides profile h1 h2 h3
    simp [setCacheData, isCacheValid, h1, h2, h3, CACHE_EXPIRATION]
  · intro t now2 hlf hle
    simp only [isCacheValid, hlf, CACHE_EXPIRATION, decide_eq_false_iff_not, not_lt]
    push_cast
    omega

/-- Witness for C5: a write into an empty store at time 100 makes the
cache valid at time 100. -/
theorem cache_ttl_validity_witness :
    isCacheValid
      (setCacheData ⟨none, none, none⟩ ⟨false, false, false⟩ .null .null 100) 100 = true :=
  (cache_ttl_validity ⟨none, none, none⟩ 100).2.1 ⟨false, false, false⟩ .null .null
    rfl rfl rfl

/-- C6: `getCachedData` returns the last-persisted snapshot when both
cells parse (in particular right after a successful write), and
returns `{ rides: null, profile: null }` — never throwing — when
storage is empty or either cell holds unparsable content. -/
theorem cache_read_on_corruption (st : Storage) :
    (∀ r p, st.cached_rides = some (.json r) → st.cached_profile = some (.json p) →
      getCachedData st = (r, p)) ∧
    (st.cached_rides = none → st.cached_profile = none →
      getCachedData st = (.null, .null)) ∧
    (∀ s, st.cached_rides = some (.garbage s) → getCachedData st = (.null, .null)) ∧
    (∀ s, st.cached_profile = some (.garbage s) → getCachedData st = (.null, .null)) ∧
    (∀ f rides profile now, f.ridesFail = false → f.profileFail = false →
      getCachedData (setCacheData st f rides profile now) = (rides, profile)) := by
  refine ⟨fun r p hr hp => getCachedData_both_json hr hp,
    fun hr hp => getCachedData_empty hr hp,
    fun s hr => getCachedData_rides_garbage hr,
    fun s hp => getCachedData_profile_garbage hp,
    fun f rides profile now h1 h2 => ?_⟩
  obtain ⟨hr, hp⟩ := setCacheData_data_written st f rides profile now h1 h2
  exact getCachedData_both_json hr hp

/-- Witness for C6: reading a store whose rides cell holds non-JSON
content yields the null pair. -/
theorem cache_read_on_corruption_witness :
    getCachedData ⟨some (.garbage "corrupt"), some (.json (.obj [])), some 0⟩ =
      (.null, .null) :=
  (cache_read_on_corruption ⟨some (.garbage "corrupt"), some (.json (.obj [])), some 0⟩
    ).2.2.1 "corrupt" rfl

/-- C9: the cached snapshot is served in place of a network fetch only
when the TTL is valid and both parsed values are non-null; whenever
the TTL is valid but either value reads back null or a cell is
unparsable, the gate falls through to the network fetch. -/
theorem cache_gate_requires_full_snapshot (st : Storage) (now : Nat) :
    (fetchServesCache st now = true →
      isCacheValid st now = true ∧
      (getCachedData st).1 ≠ .null ∧ (getCachedData st).2 ≠ .null) ∧
    (isCacheValid st now = true →
      (getCachedData st).1 = .null ∨ (getCachedData st).2 = .null →
      fetchServesCache st now = false) ∧
    (isCacheValid st now = true →
      ∀ s, st.cached_rides = some (.garbage s) ∨ st.cached_profile = some (.garbage s) →
      fetchServesCache st now = false) := by
  refine ⟨?_, ?_, ?_⟩
  · intro h
    rw [fetchServesCache, Bool.and_eq_true, Bool.and_eq_true] at h
    exact ⟨h.1, jsTruthy_ne_null h.2.1, jsTruthy_ne_null h.2.2⟩
  · rintro - (h | h) <;> simp [fetchServesCache, h, jsTruthy]
  · rintro - s (h | h)
    · simp [fetchServesCache, getCachedData_rides_garbage h, jsTruthy]
    · simp [fetchServesCache, getCachedData_profile_garbage h, jsTruthy]

/-- Witness for C9: with a fresh timestamp but corrupt rides cell, the
gate does not serve the cache. -/
theorem cache_gate_requires_full_snapshot_witness :
    isCacheValid ⟨some (.garbage "oops"), some (.json (.obj [])), some 100⟩ 100 = true ∧
    fetchServesCache ⟨some (.garbage "oops"), some (.json (.obj [])), some 100⟩ 100 = false :=
  ⟨by decide,
    (cache_gate_requires_full_snapshot
        ⟨some (.garbage "oops"), some (.json (.obj [])), some 100⟩ 100).2.2
      (by decide) "oops" (Or.inl rfl)⟩

/-- C10: `setCacheData` writes rides, then profile, then the
timestamp; a failing write aborts the remaining ones, so whenever the
timestamp was updated by the call, both data writes of the same
snapshot succeeded first. -/
theorem write_order_and_stamp (st : Storage) (f : WriteFaults) (rides profile : Json)
    (now : Nat) :
    (f.ridesFail = true → setCacheData st f rides profile now = st) ∧
    (f.ridesFail = false → f.profileFail = true →
      setCacheData st f rides profile now = { st with cached_rides := some (.json rides) }) ∧
    (f.ridesFail = false → f.profileFail = false → f.stampFail = true →
      setCacheData st f rides profile now =
        { st with cached_rides := some (.json rides),
                  cached_profile := some (.json profile) }) ∧
    (f.ridesFail = false → f.profileFail = false → f.stampFail = false →
      setCacheData st f rides profile now =
        { cached_rides := some (.json rides), cached_profile := some (.json profile),
          last_fetch_time := some now }) ∧
    ((setCacheData st f rides profile now).last_fetch_time ≠ st.last_fetch_time →
      (setCacheData st f rides profile now).cached_rides = some (.json rides) ∧
      (setCacheData st f rides profile now).cached_profile = some (.json profile)) := by
  obtain ⟨fr, fp, fs⟩ := f
  cases fr <;> cases fp <;> cases fs <;> simp [setCacheData]

/-- Witness for C10: in an empty store, a fully successful write
updates the timestamp, and both data cells hold the new snapshot. -/
theorem write_order_and_stamp_witness :
    (setCacheData ⟨none, none, none⟩ ⟨false, false, false⟩ (.arr []) (.obj []) 7
      ).cached_rides = some (.json (.arr [])) ∧
    (setCacheData ⟨none, none, none⟩ ⟨false, false, false⟩ (.arr []) (.obj []) 7
      ).cached_profile = some (.json (.obj [])) :=
  (write_order_and_stamp ⟨none, none, none⟩ ⟨false, false, false⟩ (.arr []) (.obj []) 7
    ).2.2.2.2 (by simp [setCacheData])

end LocalCache

namespace ServiceWorker

theorem cacheMatch_cachePut_self (c : Cache) (u : String) (r : Response) :
    cacheMatch (cachePut c u r) u = some r := by
  simp [cacheMatch, cachePut, List.find?]

theorem cacheMatch_none_of_noApi {c : Cache} {url : String}
    (hc : noApiEntries c) (hurl : jsIncludes url "/api/" = true) :
    cacheMatch c url = none := by
  unfold cacheMatch
  cases hf : List.find? (fun e => e.1 == url) c with
  | none => rfl
  | some e =>
    have hmem : e ∈ c := List.mem_of_find?_eq_some hf
    have hp := List.find?_some hf
    have heq : e.1 = url := by simpa using hp
    have hno := hc e hmem
    rw [heq, hurl] at hno
    exact absurd hno (by simp)

theorem cachePut_mem {c : Cache} {u : String} {r : Response} {e : String × Response}
    (he : e ∈ cachePut c u r) : e = (u, r) ∨ e ∈ c := by
  rcases List.mem_cons.mp he with h | h
  · exact Or.inl h
  · exact Or.inr (List.mem_of_mem_filter h)

theorem noApi_preserved (origin : String) (c : Cache) (req : Request)
    (net : Option Response) (hc : noApiEntries c) :
    noApiEntries (handleFetch origin c req net).2 := by
  unfold handleFetch
  by_cases h1 : jsStartsWith req.url origin = true
  · by_cases h2 : jsIncludes req.url "/api/" = true
    · simpa [h1, h2] using hc
    · cases net with
      | none => simpa [h1, h2] using hc
      | some r =>
        by_cases h3 : (req.method == "GET" && r.status == 200) = true
        · simp only [h1, h2, h3]
          intro e he
          simp only [not_true_eq_false, if_false, if_true, Bool.not_eq_true] at he ⊢
          rcases cachePut_mem (by simpa [h3] using he) with heq | hmem
          · subst heq
            exact Bool.not_eq_true _ ▸ (by simpa using h2)
          · exact hc e hmem
        · simpa [h1, h2, h3] using hc
  · simpa [h1] using hc

theorem noApi_installCache (assetResp : String → Response) :
    noApiEntries (installCache assetResp) := by
  intro e he
  simp only [installCache] at he
  obtain ⟨u, hu, rfl⟩ := List.mem_map.mp he
  show jsIncludes u "/api/" = false
  fin_cases hu <;> decide

/-- C7 is refuted at this run: starting from the freshly installed
cache, a successful `GET /api/x` stores nothing (the API branch never
calls `cache.put`), so a subsequent failed `GET /api/x` finds no
cached entry and yields no response instead of the first call's
body. -/
theorem api_cache_fallback_counterexample :
    (handleFetch "" (installCache fun _ => ⟨200, "asset"⟩)
        ⟨"/api/x", "GET", "cors"⟩ (some ⟨200, "hello"⟩)).2 =
      installCache (fun _ => ⟨200, "asset"⟩) ∧
    (handleFetch "" (installCache fun _ => ⟨200, "asset"⟩)
        ⟨"/api/x", "GET", "cors"⟩ none).1 = .respond none := by
  constructor <;> decide

/-- C7 amended: API-path requests are network-first and their
responses are never stored; on network failure the handler falls back
to `caches.match` for the identical request, but since no code path
ever stores an API-path response (the install manifest contains none
and every fetch event preserves that invariant), the fallback misses
and the failure yields no response rather than a previously fetched
body. -/
theorem api_requests_network_first (origin : String) (c : Cache) (req : Request)
    (net : Option Response)
    (hso : jsStartsWith req.url origin = true)
    (hapi : jsIncludes req.url "/api/" = true) :
    ((handleFetch origin c req net).2 = c) ∧
    (∀ r, net = some r → (handleFetch origin c req net).1 = .respond (some r)) ∧
    (net = none → (handleFetch origin c req net).1 = .respond (cacheMatch c req.url)) ∧
    (net = none → noApiEntries c → (handleFetch origin c req net).1 = .respond none) ∧
    (∀ req2 net2, noApiEntries c → noApiEntries (handleFetch origin c req2 net2).2) ∧
    (∀ assetResp, noApiEntries (installCache assetResp)) := by
  refine ⟨?_, ?_, ?_, ?_, fun req2 net2 hc => noApi_preserved origin c req2 net2 hc,
    fun assetResp => noApi_installCache assetResp⟩
  · simp [handleFetch, hso, hapi]
  · intro r hr
    subst hr
    simp [handleFetch, hso, hapi]
  · intro hn
    subst hn
    simp [handleFetch, hso, hapi]
  · intro hn hc
    subst hn
    simp [handleFetch, hso, hapi, cacheMatch_none_of_noApi hc hapi]

/-- Witness for the amended C7: a failed API request against an empty
cache yields no response. -/
theorem api_requests_network_first_witness :
    (handleFetch "" [] ⟨"/api/x", "GET", "cors"⟩ none).1 = .respond none :=
  (api_requests_network_first "" [] ⟨"/api/x", "GET", "cors"⟩ none
      (by decide) (by decide)).2.2.2.1 rfl
    (fun e he => absurd he (List.not_mem_nil e))

/-- C8: same-origin non-API requests are network-first; on success the
network response is returned and it is stored (retrievable under the
request's URL) exactly when the method is GET and the status is 200;
on failure the matching cached entry is served if present, else the
cached root document exactly for navigation requests, else no
response.  After install the root document is present in the cache, so
the navigation fallback serves it. -/
theorem non_api_network_first (origin : String) (c : Cache) (req : Request)
    (net : Option Response)
    (hso : jsStartsWith req.url origin = true)
    (hapi : jsIncludes req.url "/api/" = false) :
    (∀ r, net = some r →
      (handleFetch origin c req net).1 = .respond (some r) ∧
      (req.method = "GET" → r.status = 200 →
        cacheMatch (handleFetch origin c req net).2 req.url = some r) ∧
      (¬(req.method = "GET" ∧ r.status = 200) → (handleFetch origin c req net).2 = c)) ∧
    (net = none →
      (handleFetch origin c req net).2 = c ∧
      (∀ r, cacheMatch c req.url = some r →
        (handleFetch origin c req net).1 = .respond (some r)) ∧
      (cacheMatch c req.url = none → req.mode = "navigate" →
        (handleFetch origin c req net).1 = .respond (cacheMatch c "/index.html")) ∧
      (cacheMatch c req.url = none → req.mode ≠ "navigate" →
        (handleFetch origin c req net).1 = .respond none)) ∧
    (∀ assetResp, cacheMatch (installCache assetResp) "/index.html" =
      some (assetResp "/index.html")) := by
  refine ⟨?_, ?_, ?_⟩
  · intro r hr
    subst hr
    refine ⟨by simp [handleFetch, hso, hapi], ?_, ?_⟩
    · intro hm hs
      simp [handleFetch, hso, hapi, hm, hs, cacheMatch_cachePut_self]
    · intro hns
      have hcond : (req.method == "GET" && r.status == 200) = false := by
        rcases Decidable.not_and_iff_or_not.mp hns with h | h <;>
          simp [h]
      simp [handleFetch, hso, hapi, hcond]
  · intro hn
    subst hn
    refine ⟨by simp [handleFetch, hso, hapi], ?_, ?_, ?_⟩
    · intro r hr
      simp [handleFetch, hso, hapi, hr]
    · intro hmiss hnav
      simp [handleFetch, hso, hapi, hmiss, hnav]
    · intro hmiss hnav
      have : (req.mode == "navigate") = false := by simpa using hnav
      simp [handleFetch, hso, hapi, hmiss, this]
  · intro assetResp
    simp [installCache, STATIC_ASSETS, cacheMatch, List.find?]

/-- Witness for C8: a successful 200 GET for a same-origin non-API
path is stored in the cache under the request URL. -/
theorem non_api_network_first_witness :
    cacheMatch
      (handleFetch "" [] ⟨"/static/css/main.css", "GET", "cors"⟩
        (some ⟨200, "body"⟩)).2 "/static/css/main.css" = some ⟨200, "body"⟩ :=
  ((non_api_network_first "" [] ⟨"/static/css/main.css", "GET", "cors"⟩
      (some ⟨200, "body"⟩) (by decide) (by decide)).1 ⟨200, "body"⟩ rfl).2.1 rfl rfl

end ServiceWorker
